import Mathlib

/-!
Shallow embedding of `src/bot.py` (a Discord assistant with Attio CRM
tools, a daily deadline reminder, and article summarization), used to
check the natural-language specification of the repository.

Modelling conventions:
* calendar dates are proleptic Gregorian ordinals (Python
  `date.toordinal()`), carried as `Int`;
* the network collaborators (the Attio HTTP API, the completion
  endpoint) are explicit parameters: a `CrmOutcome` describes what one
  records-query HTTP round trip did, an `ApiOutcome` what one
  completion call did;
* Python exceptions are `Except` errors; Python dict/JSON payloads are
  structures with `Option` fields (`none` = key absent);
* `json.dumps(result, indent=2, default=str)` is total and never
  raises, so serialization is not modelled separately: the structured
  result value stands for its serialized string.
-/

namespace Bot

/-- Python `needle in haystack` substring test, at the character-list level. -/
def containsSub (needle hay : List Char) : Bool :=
  (List.range (hay.length + 1)).any fun i => needle.isPrefixOf (hay.drop i)

/-- Python `"\n".join(lines)`. -/
def joinNl : List String → String
  | [] => ""
  | [x] => x
  | x :: xs => x ++ "\n" ++ joinNl xs

/-- The fixed reminder signature: the literal searched for by
`check_and_send_missed_reminder` (`bot.py` line 439) and the leading text of
the message built by `get_countdown_message` (line 378). -/
def reminder_signature : String := "Hey Gents, here\x27s the deadline:"

/-- `DEADLINES` (`bot.py` lines 31-34): deadline names with their target
dates as ordinals (`datetime(2026, 3, 10)` and `datetime(2026, 4, 2)`:
`date(2026, 3, 10).toordinal() = 739685`, `date(2026, 4, 2).toordinal() = 739708`). -/
def DEADLINES : List (String × Int) :=
  [("Metabit Contract", 739685), ("Pear Demo Day", 739708)]

/-- One line of the countdown body (`get_countdown_message`, lines 381-388):
`days_remaining = (deadline_date.date() - today).days` rendered with the three
f-strings of the source. -/
def countdownLine (name : String) (days_remaining : Int) : String :=
  if 0 < days_remaining then name ++ ": " ++ toString days_remaining ++ " days remaining"
  else if days_remaining = 0 then name ++ ": Today is the day!"
  else name ++ ": Deadline passed!"

/-- `get_countdown_message` (lines 374-394): header line (signature plus a
newline), one line per deadline, then a blank line and the motivational quote,
joined with newlines.  The quote (produced by `generate_business_quote`) is
passed in as a parameter. -/
def get_countdown_message (today : Int) (quote : String) : String :=
  joinNl ((reminder_signature ++ "\n") ::
    DEADLINES.map (fun p => countdownLine p.1 (p.2 - today)) ++ ["\n" ++ quote])

/-- One message of the channel history as `check_and_send_missed_reminder`
inspects it: whether its author is the bot itself (`msg.author == client.user`),
its creation date converted to Eastern time (`msg.created_at.astimezone(ET).date()`,
as an ordinal), and its text content. -/
structure HistMsg where
  authorIsBot : Bool
  date : Int
  content : String
deriving DecidableEq, Repr

/-- The per-message test of the recovery scan (`bot.py` lines 436-441):
bot-authored, dated today in ET, and containing the reminder signature. -/
def isTodaysReminder (today : Int) (m : HistMsg) : Bool :=
  m.authorIsBot && m.date == today && containsSub reminder_signature.data m.content.data

/-- `send_daily_reminder` (lines 397-410), as the number of reminder messages
it sends: 0 when `CHANNEL_ID` is unset or the channel cannot be resolved,
otherwise 1. -/
def send_daily_reminder (channelConfigured channelResolved : Bool) : Nat :=
  if !channelConfigured then 0
  else if !channelResolved then 0
  else 1

/-- `check_and_send_missed_reminder` (lines 413-448), as the number of
reminder messages it sends.  `hist` is the channel history newest first;
`channel.history(limit=50)` yields its first 50 entries.  The cutoff hour is
the hard-coded `reminder_hour = 8`. -/
def check_and_send_missed_reminder (channelConfigured channelResolved : Bool)
    (nowHour : Nat) (today : Int) (hist : List HistMsg) : Nat :=
  if !channelConfigured then 0
  else if nowHour < 8 then 0
  else if !channelResolved then 0
  else if (hist.take 50).any (isTodaysReminder today) then 0
  else send_daily_reminder channelConfigured channelResolved

/-- `FALLBACK_QUOTES` (lines 37-41). -/
def FALLBACK_QUOTES : List String :=
  [ "The way to get started is to quit talking and begin doing. – Walt Disney"
  , "Stay hungry, stay foolish. – Steve Jobs"
  , "Chase the vision, not the money; the money will end up following you. – Tony Hsieh" ]

/-- Python `random.choice(seq)`: picks `seq[k]` where `k` is the index drawn
from the global (unseeded) Mersenne Twister state.  The draw is modelled as
the parameter `rand`. -/
def randomChoice (rand : Nat) (l : List String) : String :=
  (l.get? (rand % l.length)).getD ""

/-- What one completion-endpoint call did: returned a first content block
with this text, or raised. -/
inductive ApiOutcome
  | ok (text : String)
  | err
deriving DecidableEq, Repr

/-- `generate_business_quote` (lines 54-80).  With no Anthropic client the
quote is `random.choice(FALLBACK_QUOTES)`; otherwise the API response text is
stripped, with `random.choice(FALLBACK_QUOTES)` on any exception.  The current
date (`todayOrd`) is interpolated into the prompt only, whose effect is
abstracted by `api`; no branch of the function reads the date. -/
def generate_business_quote (claudeConfigured : Bool) (todayOrd : Int)
    (rand : Nat) (api : ApiOutcome) : String :=
  if !claudeConfigured then randomChoice rand FALLBACK_QUOTES
  else
    match api with
    | .ok text => text.trim
    | .err => randomChoice rand FALLBACK_QUOTES

/-! ## Reply chunking (`on_message`, lines 605-615) -/

/-- The chunks `reply[i : i + 2000]` for `i in range(0, len(reply), 2000)`,
as structural recursion on a fuel bounded below by the character count. -/
def chunkAux : Nat → List Char → List (List Char)
  | 0, _ => []
  | _, [] => []
  | f + 1, s => s.take 2000 :: chunkAux f (s.drop 2000)

/-- The chunk list of a reply (fuel instantiated). -/
def chunkText (s : List Char) : List (List Char) := chunkAux s.length s

/-- One outbound Discord send: `message.reply(content)` or
`message.channel.send(content)`. -/
inductive Send
  | replyTo (content : List Char)
  | post (content : List Char)
deriving DecidableEq, Repr

/-- The send sequence of `on_message` lines 605-615: a reply that fits in one
chunk is sent with `message.reply`; otherwise the chunk at offset `i == 0` is
sent with `message.reply` and every later chunk with `message.channel.send`. -/
def sendReply (reply : List Char) : List Send :=
  if reply.length ≤ 2000 then [Send.replyTo reply]
  else
    match chunkText reply with
    | [] => []
    | c :: cs => Send.replyTo c :: cs.map Send.post

/-! ## URL extraction (`URL_PATTERN`, line 17; `extract_urls`, lines 149-151) -/

/-- The set of code points Python's regex `\s` matches in a str pattern
(Unicode whitespace, the same set as `str.isspace` per character):
U+0009-U+000D, U+001C-U+0020, U+0085, U+00A0, U+1680, U+2000-U+200A,
U+2028-U+2029, U+202F, U+205F, U+3000. -/
def pyRegexSpace (c : Char) : Bool :=
  (0x09 ≤ c.toNat && c.toNat ≤ 0x0d) || (0x1c ≤ c.toNat && c.toNat ≤ 0x20) ||
  c.toNat == 0x85 || c.toNat == 0xa0 || c.toNat == 0x1680 ||
  (0x2000 ≤ c.toNat && c.toNat ≤ 0x200a) ||
  (0x2028 ≤ c.toNat && c.toNat ≤ 0x2029) ||
  c.toNat == 0x202f || c.toNat == 0x205f || c.toNat == 0x3000

/-- The complement of the character class of `URL_PATTERN`: `\s` whitespace
(per `pyRegexSpace`) and the characters < > " \x7b \x7d | \ ^ \x60 [ ] end a
URL match. -/
def urlDelim (c : Char) : Bool :=
  pyRegexSpace c || c == '<' || c == '>' || c == '\"' || c == Char.ofNat 123 ||
  c == Char.ofNat 125 || c == '|' || c == '\\' || c == '^' || c == Char.ofNat 96 ||
  c == '[' || c == ']'

/-- The characters of the literal `"https://"`. -/
def schemeHttps : List Char := "https://".data

/-- The characters of the literal `"http://"`. -/
def schemeHttp : List Char := "http://".data

/-- The match attempt of `URL_PATTERN` at one position: the scheme literal
(`https?://`, greedy on the optional `s`) followed by a maximal nonempty run
of non-delimiter characters. -/
def matchUrlAt (cs : List Char) : Option (List Char) :=
  if schemeHttps.isPrefixOf cs then
    if ((cs.drop 8).takeWhile (fun c => !urlDelim c)).isEmpty then none
    else some (schemeHttps ++ (cs.drop 8).takeWhile (fun c => !urlDelim c))
  else if schemeHttp.isPrefixOf cs then
    if ((cs.drop 7).takeWhile (fun c => !urlDelim c)).isEmpty then none
    else some (schemeHttp ++ (cs.drop 7).takeWhile (fun c => !urlDelim c))
  else none

/-- `re.findall` scanning for `URL_PATTERN`: try a match at each position left
to right, consume each match whole, advance one character on failure.  Fueled
structural recursion; any fuel at least the list length gives the scan. -/
def scanUrlsAux : Nat → List Char → List (List Char)
  | 0, _ => []
  | _, [] => []
  | f + 1, c :: cs =>
    match matchUrlAt (c :: cs) with
    | some m => m :: scanUrlsAux f ((c :: cs).drop m.length)
    | none => scanUrlsAux f cs

/-- The findall scan with its fuel instantiated. -/
def scanUrls (cs : List Char) : List (List Char) := scanUrlsAux cs.length cs

/-- `extract_urls` (lines 149-151): `URL_PATTERN.findall(text)`. -/
def extract_urls (text : String) : List String :=
  (scanUrls text.data).map List.asString

/-- A character list containing no `h` — no URL match can start inside it. -/
def hFree (s : List Char) : Prop := ∀ c ∈ s, c ≠ 'h'

/-- A full URL token: a scheme literal followed by a nonempty body of
non-delimiter characters. -/
def ValidUrl (u : List Char) : Prop :=
  ∃ body, body ≠ [] ∧ (∀ c ∈ body, urlDelim c = false) ∧
    (u = schemeHttp ++ body ∨ u = schemeHttps ++ body)

/-- A character list that is empty or starts with a delimiter, so that a URL
match ending right before it is not extended into it. -/
def DelimHead : List Char → Prop
  | [] => True
  | c :: _ => urlDelim c = true

/-- A text assembled from separator/URL pairs followed by a final
separator. -/
def assemble : List (List Char × List Char) → List Char → List Char
  | [], tailSep => tailSep
  | (sep, u) :: rest, tailSep => sep ++ u ++ assemble rest tailSep

/-- The text following a URL token must begin with a delimiter: either the
next pair's separator is nonempty and delimiter-led, or (when no pair
follows) the final separator is — the latter is part of `ChainOk`'s base
case. -/
def NextBoundary : List (List Char × List Char) → Prop
  | [] => True
  | (sep2, _) :: _ => sep2 ≠ [] ∧ DelimHead sep2

/-- Well-formedness of an assembled text: every separator is `h`-free, every
URL token is valid, and every URL token is followed by a delimiter or the end
of the text. -/
def ChainOk : List (List Char × List Char) → List Char → Prop
  | [], tailSep => hFree tailSep ∧ DelimHead tailSep
  | (sep, u) :: rest, tailSep =>
      hFree sep ∧ ValidUrl u ∧ NextBoundary rest ∧ ChainOk rest tailSep

instance (s : List Char) : Decidable (hFree s) := by
  unfold hFree
  exact List.decidableBAll _ s

instance (s : List Char) : Decidable (DelimHead s) := by
  cases s with
  | nil => exact inferInstanceAs (Decidable True)
  | cons c t => exact inferInstanceAs (Decidable (urlDelim c = true))

/-! ## Attio CRM data model and tools (`bot.py` lines 227-371) -/

/-- One entry of a record's `stage` value list, flattened:
`entry.get("status", \x7b\x7d).get("id", \x7b\x7d).get("status_id")` and
`entry.get("status", \x7b\x7d).get("title")`; `none` = absent at any level. -/
structure StageEntry where
  status_id : Option String
  title : Option String
deriving DecidableEq, Repr

/-- One entry of a record's `value` value list: `entry.get("currency_value", 0)`
reads `currency_value`, defaulting to 0 when absent. -/
structure ValueEntry where
  currency_value : Option Int
deriving DecidableEq, Repr

/-- One entry of a record's `name` value list: `entry.get("value", "Unknown")`. -/
structure NameEntry where
  value : Option String
deriving DecidableEq, Repr

/-- An Attio deal record's `values` dict.  `none` means the key is absent
(Python's `.get` with a default); `some []` means the key maps to an empty
list. -/
structure Deal where
  stage : Option (List StageEntry)
  value : Option (List ValueEntry)
  name : Option (List NameEntry)
deriving DecidableEq, Repr

/-- The stage label used by `attio_get_pipeline_summary` (lines 334-337):
the first stage entry's status title, with "Unknown" when the stage list is
absent or empty or the title missing. -/
def stageTitle (d : Deal) : String :=
  match d.stage with
  | some (e :: _) => e.title.getD "Unknown"
  | _ => "Unknown"

/-- The deal value used by `attio_get_pipeline_summary` (lines 339-340):
`value_data[0].get("currency_value", 0) if value_data else 0`; an absent key
and an empty list are both falsy. -/
def dealValue (d : Deal) : Int :=
  match d.value with
  | some (e :: _) => e.currency_value.getD 0
  | _ => 0

/-- The deal name used by `attio_get_pipeline_summary` (line 345):
`deal.get("values", \x7b\x7d).get("name", [\x7b\x7d])[0].get("value", "Unknown")`.
An absent key defaults to a one-element list of an empty dict, hence "Unknown".
(A present-but-empty list would raise IndexError in the source; that shape does
not occur in Attio payloads and theorems that depend on names exclude it.) -/
def dealName (d : Deal) : String :=
  match d.name with
  | none => "Unknown"
  | some [] => "Unknown"
  | some (e :: _) => e.value.getD "Unknown"

/-- The loop body of `attio_list_pipeline_stages` (lines 309-316).  The
`stages` dict (insertion-ordered, keyed by `status_id`) is an association
list; Python truthiness makes `stage_id and stage_title` false for a missing
or empty id or title. -/
def addStage (acc : List (String × String)) (d : Deal) : List (String × String) :=
  match d.stage with
  | some (e :: _) =>
    match e.status_id, e.title with
    | some sid, some titl =>
      if sid ≠ "" ∧ titl ≠ "" ∧ ¬ acc.any (fun p => p.1 == sid) then acc ++ [(sid, titl)]
      else acc
    | _, _ => acc
  | _ => acc

/-- The stage labels `attio_list_pipeline_stages` derives from a fetched page:
`list(stages.values())`, in first-seen order. -/
def pipelineStagesOf (ds : List Deal) : List String :=
  (ds.foldl addStage []).map Prod.snd

/-- One per-stage aggregate of `attio_get_pipeline_summary`:
`\x7b"count": ..., "total_value": ..., "deals": [...]\x7d`. -/
structure Bucket where
  count : Nat
  total_value : Int
  deals : List (String × Int)
deriving DecidableEq, Repr

/-- The loop body of `attio_get_pipeline_summary` (lines 342-348): create the
stage's bucket on first sight (dict insertion order = append), then increment
the count, add the value, and append the (name, value) pair. -/
def addDeal : List (String × Bucket) → String → String → Int → List (String × Bucket)
  | [], t, nm, v => [(t, ⟨1, v, [(nm, v)]⟩)]
  | (k, b) :: rest, t, nm, v =>
    if k = t then (k, ⟨b.count + 1, b.total_value + v, b.deals ++ [(nm, v)]⟩) :: rest
    else (k, b) :: addDeal rest t nm v

/-- The `summary` dict `attio_get_pipeline_summary` aggregates from a fetched
page, keyed by stage title in insertion order. -/
def pipelineSummaryOf (ds : List Deal) : List (String × Bucket) :=
  ds.foldl (fun s d => addDeal s (stageTitle d) (dealName d) (dealValue d)) []

/-- Python dict lookup on the insertion-ordered summary. -/
def lookupB (t : String) : List (String × Bucket) → Option Bucket
  | [] => none
  | (k, b) :: rest => if k = t then some b else lookupB t rest

/-- What one `addDeal` update does to the bucket of the updated key: create
it, or extend its count, total and deal list. -/
def bump (o : Option Bucket) (nm : String) (v : Int) : Bucket :=
  match o with
  | none => ⟨1, v, [(nm, v)]⟩
  | some b => ⟨b.count + 1, b.total_value + v, b.deals ++ [(nm, v)]⟩

/-- A concrete record with stage "Lead", value 100 and name "Acme", used to
instantiate the page-level theorems. -/
def wDealLead : Deal :=
  ⟨some [⟨some "s1", some "Lead"⟩], some [⟨some 100⟩], some [⟨some "Acme"⟩]⟩

/-- A concrete record lacking its stage field, with value 50 and name
"Beta". -/
def wDealNoStage : Deal := ⟨none, some [⟨some 50⟩], some [⟨some "Beta"⟩]⟩

/-- A concrete record with stage "Won" and no value or name fields. -/
def wDealWon : Deal := ⟨some [⟨some "s2", some "Won"⟩], none, none⟩

/-- The dict `attio_request` returns (it never raises and never returns
`None`): the parsed 200 body — whose `data` key may be absent — or an
`\x7b"error": ...\x7d` dict. -/
inductive AttioResp
  | jsonData (data : Option (List Deal))
  | errorMsg (msg : String)
deriving DecidableEq, Repr

/-- What one Attio records-query HTTP round trip did: a 200 response with a
parsed body (`none` = body without a `data` key), a non-2xx status, or a
raised network exception with its message. -/
inductive CrmOutcome
  | http200 (data : Option (List Deal))
  | httpErr (status : Nat)
  | netErr (msg : String)
deriving DecidableEq, Repr

/-- `attio_request` (lines 227-255): missing API key, 200, non-200 and
exception paths all return a dict — no path raises. -/
def attio_request (apiKeyConfigured : Bool) (out : CrmOutcome) : AttioResp :=
  if !apiKeyConfigured then .errorMsg "Attio API key not configured"
  else
    match out with
    | .http200 d => .jsonData d
    | .httpErr s => .errorMsg ("API returned status " ++ toString s)
    | .netErr m => .errorMsg m

/-- The query body `attio_list_deals` builds (lines 258-263):
`\x7b"limit": min(limit, 100)\x7d`, plus a stage filter when `stage` is truthy
(not `None` and not the empty string). -/
structure DealsQuery where
  limit : Int
  filterStage : Option String
deriving DecidableEq, Repr

/-- The query body sent by `attio_list_deals`. -/
def attio_list_deals_query (limit : Int) (stage : Option String) : DealsQuery :=
  { limit := min limit 100
  , filterStage :=
      match stage with
      | some s => if s ≠ "" then some s else none
      | none => none }

/-- `attio_list_deals` (lines 258-270): the query it sends and the result it
returns.  (`result or ...` only replaces a falsy dict, which `attio_request`
never produces for the shapes modelled here.) -/
def attio_list_deals (apiKey : Bool) (crm : CrmOutcome) (limit : Int)
    (stage : Option String) : DealsQuery × AttioResp :=
  (attio_list_deals_query limit stage, attio_request apiKey crm)

/-- `attio_get_deal` (lines 273-282): the `record_id` filter it sends and the
result it returns. -/
def attio_get_deal (apiKey : Bool) (crm : CrmOutcome) (deal_id : String) :
    String × AttioResp :=
  (deal_id, attio_request apiKey crm)

/-- `attio_search_deals` (lines 285-294): the `$contains` filter it sends and
the result it returns. -/
def attio_search_deals (apiKey : Bool) (crm : CrmOutcome) (query : String) :
    String × AttioResp :=
  (query, attio_request apiKey crm)

/-- The dict a tool call evaluates to (the value `json.dumps` serializes). -/
inductive ToolRes
  | rawResp (r : AttioResp)
  | stages (labels : List String)
  | summary (buckets : List (String × Bucket))
  | errorMsg (msg : String)
deriving DecidableEq, Repr

/-- `attio_list_pipeline_stages` (lines 297-318): on a 200 response carrying
a `data` key, the distinct stage labels; otherwise (error dict, or body
without `data`) its own error dict. -/
def attio_list_pipeline_stages (apiKey : Bool) (crm : CrmOutcome) : ToolRes :=
  match attio_request apiKey crm with
  | .jsonData (some ds) => .stages (pipelineStagesOf ds)
  | _ => .errorMsg "Failed to fetch pipeline info"

/-- `attio_get_pipeline_summary` (lines 321-350). -/
def attio_get_pipeline_summary (apiKey : Bool) (crm : CrmOutcome) : ToolRes :=
  match attio_request apiKey crm with
  | .jsonData (some ds) => .summary (pipelineSummaryOf ds)
  | _ => .errorMsg "Failed to fetch pipeline data"

/-- A raised Python exception crossing a function boundary. -/
inductive PyErr
  | keyError (key : String)
deriving DecidableEq, Repr

/-- The `tool_input` dict of a model-issued invocation: each known parameter
present or absent. -/
structure ToolInput where
  stage : Option String := none
  limit : Option Int := none
  deal_id : Option String := none
  query : Option String := none
deriving DecidableEq, Repr

/-- `execute_attio_tool` (lines 353-371), the dispatch entry point.
`tool_input.get("limit", 20)` and `tool_input.get("stage")` never raise;
`tool_input["deal_id"]` and `tool_input["query"]` raise `KeyError` when the
key is absent; an unknown tool name yields an error dict. -/
def execute_attio_tool (apiKey : Bool) (crm : CrmOutcome) (tool_name : String)
    (tool_input : ToolInput) : Except PyErr ToolRes :=
  if tool_name = "list_deals" then
    .ok (.rawResp (attio_list_deals apiKey crm (tool_input.limit.getD 20) tool_input.stage).2)
  else if tool_name = "get_deal" then
    match tool_input.deal_id with
    | none => .error (.keyError "deal_id")
    | some did => .ok (.rawResp (attio_get_deal apiKey crm did).2)
  else if tool_name = "search_deals" then
    match tool_input.query with
    | none => .error (.keyError "query")
    | some q => .ok (.rawResp (attio_search_deals apiKey crm q).2)
  else if tool_name = "list_pipeline_stages" then
    .ok (attio_list_pipeline_stages apiKey crm)
  else if tool_name = "get_pipeline_summary" then
    .ok (attio_get_pipeline_summary apiKey crm)
  else
    .ok (.errorMsg ("Unknown tool: " ++ tool_name))

/-- The tool-execution loop of one tool round in `on_message` (lines 573-581):
execute each requested invocation in the order the model listed them,
collecting one result per invocation; a raised exception aborts the loop and
propagates. -/
def run_invocations (apiKey : Bool) (crm : CrmOutcome) :
    List (String × ToolInput) → Except PyErr (List ToolRes)
  | [] => .ok []
  | (n, i) :: rest => do
    let r ← execute_attio_tool apiKey crm n i
    let rs ← run_invocations apiKey crm rest
    pure (r :: rs)

/-- Where a tool round leaves the turn: the collected results are handed back
to the model, or an exception escaped to the turn-level handler (lines
617-619), which sends the fixed apology — the `FAILED` state. -/
inductive TurnStep
  | toolResults (rs : List ToolRes)
  | failedApology
deriving DecidableEq, Repr

/-- One tool round of `on_message` under its `try`: any exception raised
inside the tool loop is caught only at the turn boundary and converts the
whole turn to the apology reply. -/
def tool_round_outcome (apiKey : Bool) (crm : CrmOutcome)
    (invocations : List (String × ToolInput)) : TurnStep :=
  match run_invocations apiKey crm invocations with
  | .ok rs => .toolResults rs
  | .error _ => .failedApology

/-! ## Claims C1 and C2: tool-dispatch error handling -/

/-- If a tool invocation carries its required string arguments (`deal_id` for
`get_deal`, `query` for `search_deals`), `execute_attio_tool` returns a value
for every CRM outcome — including non-2xx statuses, network failures, a
missing API key, and unknown tool names. -/
lemma execute_attio_tool_ok (apiKey : Bool) (crm : CrmOutcome) (n : String)
    (i : ToolInput) (h1 : n = "get_deal" → i.deal_id ≠ none)
    (h2 : n = "search_deals" → i.query ≠ none) :
    ∃ r, execute_attio_tool apiKey crm n i = .ok r := by
  unfold execute_attio_tool
  by_cases e1 : n = "list_deals"
  · rw [if_pos e1]; exact ⟨_, rfl⟩
  · rw [if_neg e1]
    by_cases e2 : n = "get_deal"
    · rw [if_pos e2]
      cases hd : i.deal_id with
      | none => exact absurd hd (h1 e2)
      | some did => exact ⟨_, rfl⟩
    · rw [if_neg e2]
      by_cases e3 : n = "search_deals"
      · rw [if_pos e3]
        cases hq : i.query with
        | none => exact absurd hq (h2 e3)
        | some q => exact ⟨_, rfl⟩
      · rw [if_neg e3]
        by_cases e4 : n = "list_pipeline_stages"
        · rw [if_pos e4]; exact ⟨_, rfl⟩
        · rw [if_neg e4]
          by_cases e5 : n = "get_pipeline_summary"
          · rw [if_pos e5]; exact ⟨_, rfl⟩
          · rw [if_neg e5]; exact ⟨_, rfl⟩

/-- Helper for C1: under the required-argument condition, the tool loop
collects one result per invocation and never raises. -/
lemma run_invocations_ok (apiKey : Bool) (crm : CrmOutcome)
    (invs : List (String × ToolInput))
    (h : ∀ p ∈ invs, (p.1 = "get_deal" → p.2.deal_id ≠ none) ∧
      (p.1 = "search_deals" → p.2.query ≠ none)) :
    ∃ rs, run_invocations apiKey crm invs = .ok rs ∧ rs.length = invs.length := by
  induction invs with
  | nil => exact ⟨[], rfl, rfl⟩
  | cons p rest ih =>
    obtain ⟨n, i⟩ := p
    obtain ⟨hp1, hp2⟩ := h (n, i) (List.mem_cons_self _ _)
    obtain ⟨r, hr⟩ := execute_attio_tool_ok apiKey crm n i hp1 hp2
    obtain ⟨rs, hrs, hlen⟩ := ih (fun q hq => h q (List.mem_cons_of_mem _ hq))
    refine ⟨r :: rs, ?_, by simp [hlen]⟩
    simp only [run_invocations, hr, hrs]
    rfl

/-- C1 (counterexample): a `get_deal` invocation whose argument mapping lacks
`deal_id` raises a `KeyError` out of the dispatch entry point; the exception
crosses the loop boundary and is caught only by the turn-level handler, which
sends the fixed apology — the turn is moved to `FAILED`, contradicting the
claim that a failure inside a tool call never does so. -/
theorem claim_C1_counterexample :
    tool_round_outcome true (CrmOutcome.http200 (some [])) [("get_deal", {})] =
      TurnStep.failedApology := rfl

/-- C1 (amended): a non-2xx CRM response, a network failure, a missing API
key or an unknown tool name indeed never raises — the dispatch entry point
hands the error back as data and the tool round completes with one result per
invocation; but this holds only when every `get_deal` invocation carries
`deal_id` and every `search_deals` invocation carries `query`, since a missing
required argument raises a `KeyError` that the loop does not catch. -/
theorem claim_C1 (apiKey : Bool) (crm : CrmOutcome)
    (invs : List (String × ToolInput))
    (h : ∀ p ∈ invs, (p.1 = "get_deal" → p.2.deal_id ≠ none) ∧
      (p.1 = "search_deals" → p.2.query ≠ none)) :
    ∃ rs, tool_round_outcome apiKey crm invs = TurnStep.toolResults rs ∧
      rs.length = invs.length := by
  obtain ⟨rs, hrs, hlen⟩ := run_invocations_ok apiKey crm invs h
  exact ⟨rs, by simp [tool_round_outcome, hrs], hlen⟩

/-- C1 (witness): the amended theorem applied to a concrete round of three
invocations against a CRM that answers 500, with the required arguments
present. -/
theorem claim_C1_witness :
    (∀ p ∈ ([("get_deal", { deal_id := some "d1" }), ("list_deals", {}),
        ("search_deals", { query := some "acme" })] : List (String × ToolInput)),
      (p.1 = "get_deal" → p.2.deal_id ≠ none) ∧
      (p.1 = "search_deals" → p.2.query ≠ none)) ∧
    ∃ rs, tool_round_outcome false (CrmOutcome.httpErr 500)
        [("get_deal", { deal_id := some "d1" }), ("list_deals", {}),
          ("search_deals", { query := some "acme" })] = TurnStep.toolResults rs ∧
      rs.length = 3 :=
  ⟨by decide, claim_C1 false (CrmOutcome.httpErr 500) _ (by decide)⟩

/-- C2 (counterexample): calling the `get_deal` tool with an argument mapping
that lacks `deal_id` yields a raised `KeyError`, not an error result — no
request validation happens and no ToolResult is produced. -/
theorem claim_C2_counterexample :
    execute_attio_tool true (CrmOutcome.http200 (some [])) "get_deal" {} =
      Except.error (PyErr.keyError "deal_id") := rfl

/-- C2 (amended): for every CRM behaviour and every argument mapping lacking
the `deal_id` key, dispatching `get_deal` raises `KeyError "deal_id"` out of
`execute_attio_tool` (to be caught only at the turn boundary); the source
performs no request validation and issues no network call for this case. -/
theorem claim_C2 (apiKey : Bool) (crm : CrmOutcome) (input : ToolInput)
    (h : input.deal_id = none) :
    execute_attio_tool apiKey crm "get_deal" input =
      Except.error (PyErr.keyError "deal_id") := by
  unfold execute_attio_tool
  rw [if_neg (by decide : ¬ ("get_deal" = "list_deals")), if_pos rfl, h]

/-- C2 (witness): the amended theorem at a concrete input with no `deal_id`. -/
theorem claim_C2_witness :
    ({ query := some "acme" } : ToolInput).deal_id = none ∧
    execute_attio_tool true (CrmOutcome.netErr "timeout") "get_deal"
        { query := some "acme" } = Except.error (PyErr.keyError "deal_id") :=
  ⟨rfl, claim_C2 true (CrmOutcome.netErr "timeout") _ rfl⟩

/-! ## Claim C3: the list_deals limit -/

/-- C3 (counterexample): a limit of 0 is sent to the CRM query unchanged —
`min(0, 100) = 0` — not raised to 1 as the claim states. -/
theorem claim_C3_counterexample :
    (attio_list_deals_query 0 none).limit = 0 ∧
      (attio_list_deals_query 0 none).limit ≠ 1 := by
  constructor <;> simp [attio_list_deals_query]

/-- C3 (amended): the limit sent to the CRM query is `min(limit, 100)`: the
given value is capped above at 100 but has no lower bound, so any value at
most 100 — including 0 and negative values — is sent unchanged; when the
invocation carries no limit, the dispatch default 20 is sent. -/
theorem claim_C3 (stage : Option String) (l : Int) (input : ToolInput) :
    (l ≤ 100 → (attio_list_deals_query l stage).limit = l) ∧
    (100 ≤ l → (attio_list_deals_query l stage).limit = 100) ∧
    (input.limit = none → (attio_list_deals_query (input.limit.getD 20) stage).limit = 20) := by
  refine ⟨fun h => min_eq_left h, fun h => min_eq_right h, fun h => ?_⟩
  rw [h]
  show min (20 : Int) 100 = 20
  decide

/-- C3 (witness): the amended theorem at 0 (sent as 0), at 250 (sent as 100),
and with the limit absent (sent as 20). -/
theorem claim_C3_witness :
    (attio_list_deals_query 0 none).limit = 0 ∧
    (attio_list_deals_query 250 none).limit = 100 ∧
    (attio_list_deals_query (({} : ToolInput).limit.getD 20) none).limit = 20 :=
  ⟨(claim_C3 none 0 {}).1 (by decide), (claim_C3 none 250 {}).2.1 (by decide),
    (claim_C3 none 0 {}).2.2 rfl⟩

/-! ## Claim C6: the motivational quote -/

/-- C6 (counterexample): there is no deterministic day-keyed quote mode.  On
the non-API path the quote is `random.choice(FALLBACK_QUOTES)` from the
unseeded global RNG: two calls on the same calendar day whose RNG draws
differ return different quotes. -/
theorem claim_C6_counterexample :
    generate_business_quote false 739685 0 ApiOutcome.err ≠
      generate_business_quote false 739685 1 ApiOutcome.err := by decide

/-- C6 (amended): the quote is a pure function of the configuration flag, the
RNG draw and the completion-call outcome, and is independent of the date: the
date never influences which quote is returned, so the mapping is not keyed by
the day ordinal (the date is only interpolated into the model prompt). -/
theorem claim_C6 (claudeConfigured : Bool) (t1 t2 : Int) (rand : Nat)
    (api : ApiOutcome) :
    generate_business_quote claudeConfigured t1 rand api =
      generate_business_quote claudeConfigured t2 rand api := rfl

/-! ## Claim C5: the countdown line renderings -/

/-- The "remaining" and "today" renderings differ: one ends in `g`, the
other in `!`. -/
lemma countdown_remaining_ne_today (name : String) (d : Int) :
    name ++ ": " ++ toString d ++ " days remaining" ≠ name ++ ": Today is the day!" := by
  intro h
  have h2 := congrArg (fun s => s.data.getLast?) h
  simp only [String.data_append, List.getLast?_append] at h2
  exact absurd (show (some 'g' : Option Char) = some '!' from h2) (by decide)

/-- The "remaining" and "passed" renderings differ: one ends in `g`, the
other in `!`. -/
lemma countdown_remaining_ne_passed (name : String) (d : Int) :
    name ++ ": " ++ toString d ++ " days remaining" ≠ name ++ ": Deadline passed!" := by
  intro h
  have h2 := congrArg (fun s => s.data.getLast?) h
  simp only [String.data_append, List.getLast?_append] at h2
  exact absurd (show (some 'g' : Option Char) = some '!' from h2) (by decide)

/-- The "today" and "passed" renderings differ: their suffixes after the name
have different lengths. -/
lemma countdown_today_ne_passed (name : String) :
    name ++ ": Today is the day!" ≠ name ++ ": Deadline passed!" := by
  intro h
  have h2 := congrArg (fun s => s.data.length) h
  simp only [String.data_append, List.length_append] at h2
  rw [(by decide : ": Today is the day!".data.length = 19),
    (by decide : ": Deadline passed!".data.length = 18)] at h2
  omega

/-- C5 (confirmed): for every date and deadline, the rendered line is the
"N days remaining" form with N the exact whole-day difference iff that
difference is positive, the "Today is the day!" form iff it is zero, and the
"Deadline passed!" form iff it is negative. -/
theorem claim_C5 (name : String) (today deadline : Int) :
    ((countdownLine name (deadline - today) =
        name ++ ": " ++ toString (deadline - today) ++ " days remaining") ↔
      0 < deadline - today) ∧
    ((countdownLine name (deadline - today) = name ++ ": Today is the day!") ↔
      deadline - today = 0) ∧
    ((countdownLine name (deadline - today) = name ++ ": Deadline passed!") ↔
      deadline - today < 0) := by
  generalize deadline - today = d
  rcases lt_trichotomy d 0 with hneg | hzero | hpos
  · have hc : countdownLine name d = name ++ ": Deadline passed!" := by
      unfold countdownLine
      rw [if_neg (by omega), if_neg (by omega)]
    refine ⟨⟨fun h => ?_, fun h => absurd h (by omega)⟩,
      ⟨fun h => ?_, fun h => absurd h (by omega)⟩, ⟨fun _ => hneg, fun _ => hc⟩⟩
    · rw [hc] at h
      exact absurd h.symm (countdown_remaining_ne_passed name d)
    · rw [hc] at h
      exact absurd h.symm (countdown_today_ne_passed name)
  · have hc : countdownLine name d = name ++ ": Today is the day!" := by
      unfold countdownLine
      rw [if_neg (by omega), if_pos hzero]
    refine ⟨⟨fun h => ?_, fun h => absurd h (by omega)⟩,
      ⟨fun _ => hzero, fun _ => hc⟩, ⟨fun h => ?_, fun h => absurd h (by omega)⟩⟩
    · rw [hc] at h
      exact absurd h.symm (countdown_remaining_ne_today name d)
    · rw [hc] at h
      exact absurd h (countdown_today_ne_passed name)
  · have hc : countdownLine name d =
        name ++ ": " ++ toString d ++ " days remaining" := by
      unfold countdownLine
      rw [if_pos hpos]
    refine ⟨⟨fun _ => hpos, fun _ => hc⟩,
      ⟨fun h => ?_, fun h => absurd h (by omega)⟩,
      ⟨fun h => ?_, fun h => absurd h (by omega)⟩⟩
    · rw [hc] at h
      exact absurd h (countdown_remaining_ne_today name d)
    · rw [hc] at h
      exact absurd h (countdown_remaining_ne_passed name d)

/-! ## Claims C10 and C4: the reminder signature and the recovery scan -/

/-- A list that starts with `needle` contains it as a substring. -/
lemma containsSub_of_eq_append (needle hay rest : List Char)
    (h : hay = needle ++ rest) : containsSub needle hay = true := by
  subst h
  unfold containsSub
  rw [List.any_eq_true]
  refine ⟨0, List.mem_range.2 (by omega), ?_⟩
  rw [List.drop_zero, List.isPrefixOf_iff_prefix]
  exact List.prefix_append _ _

/-- The countdown message spelled out over the concrete `DEADLINES` list. -/
lemma get_countdown_message_eq (today : Int) (quote : String) :
    get_countdown_message today quote =
      (reminder_signature ++ "\n") ++ "\n" ++
        (countdownLine "Metabit Contract" (739685 - today) ++ "\n" ++
          (countdownLine "Pear Demo Day" (739708 - today) ++ "\n" ++
            ("\n" ++ quote))) := rfl

/-- Every built countdown message starts with the signature characters. -/
lemma get_countdown_message_data (today : Int) (quote : String) :
    ∃ rest, (get_countdown_message today quote).data =
      reminder_signature.data ++ rest := by
  rw [get_countdown_message_eq]
  simp only [String.data_append, List.append_assoc]
  exact ⟨_, rfl⟩

/-- C10 (confirmed): every message the countdown builder produces begins with
the exact literal the recovery scan searches for, so a bot-authored message
carrying it, dated today, satisfies the scan's matcher, and a history whose
most recent message is such a reminder makes the recovery check send
nothing. -/
theorem claim_C10 (today : Int) (quote : String) (hist : List HistMsg)
    (h : Nat) (h8 : 8 ≤ h) :
    reminder_signature.data.isPrefixOf (get_countdown_message today quote).data = true ∧
    isTodaysReminder today ⟨true, today, get_countdown_message today quote⟩ = true ∧
    check_and_send_missed_reminder true true h today
      (⟨true, today, get_countdown_message today quote⟩ :: hist) = 0 := by
  obtain ⟨rest, hrest⟩ := get_countdown_message_data today quote
  have hpre : reminder_signature.data.isPrefixOf
      (get_countdown_message today quote).data = true := by
    rw [hrest, List.isPrefixOf_iff_prefix]
    exact List.prefix_append _ _
  have hmatch : isTodaysReminder today
      ⟨true, today, get_countdown_message today quote⟩ = true := by
    show (true && (today == today) &&
      containsSub reminder_signature.data (get_countdown_message today quote).data) = true
    rw [containsSub_of_eq_append _ _ rest hrest]
    simp
  have htake : ((⟨true, today, get_countdown_message today quote⟩ : HistMsg) :: hist).take 50 =
      (⟨true, today, get_countdown_message today quote⟩ : HistMsg) :: hist.take 49 := rfl
  refine ⟨hpre, hmatch, ?_⟩
  simp [check_and_send_missed_reminder, send_daily_reminder,
    (by omega : ¬ h < 8), htake, hmatch]

/-- C10 (witness): the theorem at a concrete date, quote, history and hour. -/
theorem claim_C10_witness :
    8 ≤ 9 ∧
    (reminder_signature.data.isPrefixOf (get_countdown_message 739685 "Go!").data = true ∧
     isTodaysReminder 739685 ⟨true, 739685, get_countdown_message 739685 "Go!"⟩ = true ∧
     check_and_send_missed_reminder true true 9 739685
       [⟨true, 739685, get_countdown_message 739685 "Go!"⟩] = 0) :=
  ⟨by decide, claim_C10 739685 "Go!" [] 9 (by decide)⟩

/-- C4 (confirmed): past the cutoff hour, with the channel configured and
resolved, the recovery check sends zero reminders when some message among the
most recent 50 is a bot-authored, today-dated message containing the
signature, and sends exactly one when no such message exists — so at most one
signature-matching reminder is produced per calendar day. -/
theorem claim_C4 (hist : List HistMsg) (today : Int) (h : Nat) (h8 : 8 ≤ h) :
    ((hist.take 50).any (isTodaysReminder today) = true →
      check_and_send_missed_reminder true true h today hist = 0) ∧
    ((hist.take 50).any (isTodaysReminder today) = false →
      check_and_send_missed_reminder true true h today hist = 1) := by
  have hh : ¬ (h < 8) := by omega
  constructor <;> intro hm <;>
    simp [check_and_send_missed_reminder, send_daily_reminder, hh, hm]

/-- C4 (witness): the theorem applied at hour 10 to a history containing a
matching reminder (zero sends) and to an empty history (one send). -/
theorem claim_C4_witness :
    check_and_send_missed_reminder true true 10 5
      [⟨true, 5, "Hey Gents, here\x27s the deadline:\nrest"⟩] = 0 ∧
    check_and_send_missed_reminder true true 10 5 [] = 1 :=
  ⟨(claim_C4 [⟨true, 5, "Hey Gents, here\x27s the deadline:\nrest"⟩] 5 10
      (by decide)).1 (by decide),
   (claim_C4 [] 5 10 (by decide)).2 (by decide)⟩

/-! ## Claim C7: reply chunking -/

/-- Any two sufficient fuels give the same chunk list. -/
lemma chunkAux_congr (n : Nat) :
    ∀ (s : List Char) (f g : Nat), s.length ≤ n → s.length ≤ f → s.length ≤ g →
      chunkAux f s = chunkAux g s := by
  induction n with
  | zero =>
    intro s f g hn _ _
    have hs := List.length_eq_zero.1 (Nat.le_zero.1 hn)
    subst hs
    cases f <;> cases g <;> rfl
  | succ n ih =>
    intro s f g hn hf hg
    match s with
    | [] => cases f <;> cases g <;> rfl
    | c :: t =>
      have h1 : 1 ≤ (c :: t).length := by simp
      match f, g with
      | f' + 1, g' + 1 =>
        simp only [chunkAux]
        congr 1
        have hd : ((c :: t).drop 2000).length ≤ n := by
          simp only [List.length_drop] at *
          omega
        exact ih _ f' g' hd (by simp only [List.length_drop] at *; omega)
          (by simp only [List.length_drop] at *; omega)
      | 0, _ => omega
      | _ + 1, 0 => omega

/-- Unfolding `chunkText` on a nonempty reply: the first 2000 characters,
then the chunks of the rest. -/
lemma chunkText_cons_eq (s : List Char) (hs : s ≠ []) :
    chunkText s = s.take 2000 :: chunkText (s.drop 2000) := by
  match s with
  | c :: t =>
    show chunkAux (t.length + 1) (c :: t) = _
    simp only [chunkAux]
    congr 1
    exact chunkAux_congr t.length _ t.length _
      (by simp [List.length_drop]) (by simp [List.length_drop]) (by simp [List.length_drop])

/-- The chunks concatenate back to the original reply. -/
lemma chunkAux_flatten : ∀ (f : Nat) (s : List Char), s.length ≤ f →
    (chunkAux f s).flatten = s := by
  intro f
  induction f with
  | zero =>
    intro s h
    have hs := List.length_eq_zero.1 (Nat.le_zero.1 h)
    subst hs
    rfl
  | succ f ih =>
    intro s h
    match s with
    | [] => rfl
    | c :: t =>
      simp only [chunkAux, List.flatten_cons]
      rw [ih _ (by simp only [List.length_drop] at *; omega)]
      exact List.take_append_drop _ _

/-- Every chunk holds at most 2000 characters. -/
lemma chunkAux_sizes : ∀ (f : Nat) (s : List Char),
    ∀ c ∈ chunkAux f s, c.length ≤ 2000 := by
  intro f
  induction f with
  | zero =>
    intro s c hc
    simp only [chunkAux] at hc
    exact absurd hc (List.not_mem_nil _)
  | succ f ih =>
    intro s c hc
    match s with
    | [] =>
      simp only [chunkAux] at hc
      exact absurd hc (List.not_mem_nil _)
    | x :: t =>
      simp only [chunkAux] at hc
      rcases List.mem_cons.1 hc with h | h
      · rw [h, List.length_take]
        omega
      · exact ih _ _ h

/-- The ceiling-division step matching one 2000-character chunk. -/
lemma ceil_div_2000_step (n : Nat) (hn : 1 ≤ n) :
    (n - 2000 + 1999) / 2000 + 1 = (n + 1999) / 2000 := by
  have key : (n + 1999) / 2000 = (n - 1) / 2000 + 1 := by
    rw [(by omega : n + 1999 = (n - 1) + 2000), Nat.add_div_right _ (by norm_num)]
  by_cases h2 : 2000 ≤ n
  · rw [key, (by omega : n - 2000 + 1999 = n - 1)]
  · rw [key, (by omega : n - 2000 = 0),
      Nat.div_eq_of_lt (by omega : n - 1 < 2000)]

/-- The chunk count is the ceiling of length / 2000. -/
lemma chunkAux_count : ∀ (f : Nat) (s : List Char), s.length ≤ f →
    (chunkAux f s).length = (s.length + 1999) / 2000 := by
  intro f
  induction f with
  | zero =>
    intro s h
    have hs := List.length_eq_zero.1 (Nat.le_zero.1 h)
    subst hs
    rfl
  | succ f ih =>
    intro s h
    match s with
    | [] => rfl
    | c :: t =>
      simp only [chunkAux, List.length_cons]
      rw [ih _ (by simp only [List.length_drop] at *; omega)]
      simp only [List.length_drop, List.length_cons]
      exact ceil_div_2000_step (t.length + 1) (by omega)

/-- A nonempty reply of at most 2000 characters is one single chunk. -/
lemma chunkText_small (s : List Char) (h0 : s ≠ []) (h1 : s.length ≤ 2000) :
    chunkText s = [s] := by
  rw [chunkText_cons_eq s h0, List.take_of_length_le h1,
    List.drop_eq_nil_of_le h1]
  rfl

/-- C7 (confirmed): a nonempty reply of length L yields exactly
ceil(L / 2000) = (L + 1999) / 2000 chunks, each of at most 2000 characters,
whose in-order concatenation is the original reply; the first chunk is sent
as a reply to the triggering message and every later chunk as a plain channel
post, in order. -/
theorem claim_C7 (reply : List Char) (hne : reply ≠ []) :
    (chunkText reply).length = (reply.length + 1999) / 2000 ∧
    (∀ c ∈ chunkText reply, c.length ≤ 2000) ∧
    (chunkText reply).flatten = reply ∧
    ∃ c cs, chunkText reply = c :: cs ∧
      sendReply reply = Send.replyTo c :: cs.map Send.post := by
  refine ⟨chunkAux_count _ _ le_rfl, chunkAux_sizes _ _, chunkAux_flatten _ _ le_rfl, ?_⟩
  by_cases hsmall : reply.length ≤ 2000
  · refine ⟨reply, [], chunkText_small reply hne hsmall, ?_⟩
    unfold sendReply
    rw [if_pos hsmall]
    rfl
  · obtain ⟨c, cs, hcs⟩ : ∃ c cs, chunkText reply = c :: cs :=
      ⟨_, _, chunkText_cons_eq reply hne⟩
    refine ⟨c, cs, hcs, ?_⟩
    unfold sendReply
    rw [if_neg hsmall, hcs]

/-- C7 (witness): the theorem at the two-character reply "hi" — one chunk,
sent as a reply. -/
theorem claim_C7_witness :
    "hi".data ≠ [] ∧
    ((chunkText "hi".data).length = ("hi".data.length + 1999) / 2000 ∧
     (∀ c ∈ chunkText "hi".data, c.length ≤ 2000) ∧
     (chunkText "hi".data).flatten = "hi".data ∧
     ∃ c cs, chunkText "hi".data = c :: cs ∧
       sendReply "hi".data = Send.replyTo c :: cs.map Send.post) :=
  ⟨by decide, claim_C7 "hi".data (by decide)⟩

/-! ## Claim C9: stage set and pipeline summary -/

/-- A dict lookup after one `addDeal` update: changed (via `bump`) exactly at
the updated key. -/
lemma lookupB_addDeal (s : List (String × Bucket)) (t t' nm : String) (v : Int) :
    lookupB t (addDeal s t' nm v) =
      if t' = t then some (bump (lookupB t s) nm v) else lookupB t s := by
  induction s with
  | nil =>
    by_cases h : t' = t
    · subst h
      simp [addDeal, lookupB, bump]
    · simp [addDeal, lookupB, h]
  | cons p rest ih =>
    obtain ⟨k, b⟩ := p
    by_cases hkt' : k = t'
    · subst hkt'
      by_cases hkt : k = t
      · subst hkt
        simp [addDeal, lookupB, bump]
      · simp [addDeal, lookupB, hkt, fun h => hkt (h : t = k).symm]
    · by_cases hkt : k = t
      · subst hkt
        simp [addDeal, lookupB, hkt', Ne.symm hkt']
      · simp [addDeal, lookupB, hkt', hkt, ih]

/-- A dict lookup after folding a page through `addDeal`: only the deals
whose stage title is the looked-up key contribute, in page order. -/
lemma lookupB_foldAddDeal (ds : List Deal) :
    ∀ (acc : List (String × Bucket)) (t : String),
      lookupB t (ds.foldl (fun s d => addDeal s (stageTitle d) (dealName d) (dealValue d)) acc) =
        (ds.filter (fun x => stageTitle x == t)).foldl
          (fun o x => some (bump o (dealName x) (dealValue x))) (lookupB t acc) := by
  induction ds with
  | nil => intro acc t; rfl
  | cons d ds ih =>
    intro acc t
    rw [List.foldl_cons, ih, lookupB_addDeal, List.filter_cons]
    by_cases h : stageTitle d = t
    · rw [if_pos h, if_pos (show (stageTitle d == t) = true by simp [h]), List.foldl_cons]
    · rw [if_neg h, if_neg (show ¬ (stageTitle d == t) = true by simp [h])]

/-- Folding `bump` over a list of deals starting from an existing bucket
appends their count, their total value and their (name, value) pairs. -/
lemma foldl_bump (F : List Deal) :
    ∀ b : Bucket,
      F.foldl (fun o x => some (bump o (dealName x) (dealValue x))) (some b) =
        some ⟨b.count + F.length, b.total_value + (F.map dealValue).sum,
          b.deals ++ F.map (fun x => (dealName x, dealValue x))⟩ := by
  induction F with
  | nil =>
    intro b
    simp
  | cons x F ih =>
    intro b
    rw [List.foldl_cons]
    show F.foldl _ (some (bump (some b) (dealName x) (dealValue x))) = _
    rw [ih]
    refine congrArg some ?_
    show Bucket.mk _ _ _ = Bucket.mk _ _ _
    congr 1
    · simp only [bump, List.length_cons]
      omega
    · simp only [bump, List.map_cons, List.sum_cons]
      ring
    · simp only [bump, List.map_cons]
      simp [List.append_assoc]

/-- The "Unknown" (or any) bucket of the aggregated summary, spelled out over
the filtered page. -/
lemma lookupB_pipelineSummaryOf (ds : List Deal) (t : String) (f : Deal)
    (F : List Deal) (hF : ds.filter (fun x => stageTitle x == t) = f :: F) :
    lookupB t (pipelineSummaryOf ds) =
      some ⟨(f :: F).length, ((f :: F).map dealValue).sum,
        (f :: F).map (fun x => (dealName x, dealValue x))⟩ := by
  unfold pipelineSummaryOf
  rw [lookupB_foldAddDeal, hF]
  show (f :: F).foldl _ none = _
  rw [List.foldl_cons]
  show F.foldl _ (some (bump none (dealName f) (dealValue f))) = _
  rw [foldl_bump]
  refine congrArg some ?_
  show Bucket.mk _ _ _ = Bucket.mk _ _ _
  congr 1
  simp only [bump, List.length_cons]
  omega

/-- C9 (confirmed): over any fetched page of at most 100 records, a record
lacking its stage field contributes nothing to the distinct-stage set of
`list_pipeline_stages`, while `get_pipeline_summary` buckets it under
"Unknown": the "Unknown" bucket's count, total value and deal list are the
aggregation of exactly the "Unknown"-titled records of the page, this record
among them.  (Records whose name field maps to an empty list are excluded:
the source would raise on them.) -/
theorem claim_C9 (l1 l2 : List Deal) (d : Deal) (hstage : d.stage = none)
    (hlen : (l1 ++ d :: l2).length ≤ 100)
    (hname : ∀ x ∈ l1 ++ d :: l2, x.name ≠ some []) :
    attio_list_pipeline_stages true (CrmOutcome.http200 (some (l1 ++ d :: l2))) =
      attio_list_pipeline_stages true (CrmOutcome.http200 (some (l1 ++ l2))) ∧
    attio_get_pipeline_summary true (CrmOutcome.http200 (some (l1 ++ d :: l2))) =
      ToolRes.summary (pipelineSummaryOf (l1 ++ d :: l2)) ∧
    ∃ F, (l1 ++ d :: l2).filter (fun x => stageTitle x == "Unknown") = F ∧
      d ∈ F ∧
      lookupB "Unknown" (pipelineSummaryOf (l1 ++ d :: l2)) =
        some ⟨F.length, (F.map dealValue).sum,
          F.map (fun x => (dealName x, dealValue x))⟩ ∧
      (dealName d, dealValue d) ∈ F.map (fun x => (dealName x, dealValue x)) := by
  have hadd : ∀ acc, addStage acc d = acc := by
    intro acc
    simp [addStage, hstage]
  have hstages : pipelineStagesOf (l1 ++ d :: l2) = pipelineStagesOf (l1 ++ l2) := by
    unfold pipelineStagesOf
    rw [List.foldl_append, List.foldl_cons, hadd, ← List.foldl_append]
  have hdT : stageTitle d = "Unknown" := by
    simp [stageTitle, hstage]
  have hdmem : d ∈ (l1 ++ d :: l2).filter (fun x => stageTitle x == "Unknown") :=
    List.mem_filter.2 ⟨by simp, by simp [hdT]⟩
  refine ⟨?_, rfl, ?_⟩
  · show ToolRes.stages (pipelineStagesOf (l1 ++ d :: l2)) =
      ToolRes.stages (pipelineStagesOf (l1 ++ l2))
    rw [hstages]
  · cases hF : (l1 ++ d :: l2).filter (fun x => stageTitle x == "Unknown") with
    | nil =>
      rw [hF] at hdmem
      exact absurd hdmem (List.not_mem_nil _)
    | cons f F =>
      rw [hF] at hdmem
      exact ⟨f :: F, rfl, hdmem,
        lookupB_pipelineSummaryOf _ _ f F hF, List.mem_map_of_mem _ hdmem⟩

/-- C9 (witness): the theorem at a three-record page whose middle record
lacks a stage. -/
theorem claim_C9_witness :
    wDealNoStage.stage = none ∧
    ([wDealLead] ++ wDealNoStage :: [wDealWon]).length ≤ 100 ∧
    (∀ x ∈ [wDealLead] ++ wDealNoStage :: [wDealWon], x.name ≠ some []) ∧
    (attio_list_pipeline_stages true
        (CrmOutcome.http200 (some ([wDealLead] ++ wDealNoStage :: [wDealWon]))) =
      attio_list_pipeline_stages true
        (CrmOutcome.http200 (some ([wDealLead] ++ [wDealWon]))) ∧
    attio_get_pipeline_summary true
        (CrmOutcome.http200 (some ([wDealLead] ++ wDealNoStage :: [wDealWon]))) =
      ToolRes.summary (pipelineSummaryOf ([wDealLead] ++ wDealNoStage :: [wDealWon])) ∧
    ∃ F, ([wDealLead] ++ wDealNoStage :: [wDealWon]).filter
        (fun x => stageTitle x == "Unknown") = F ∧
      wDealNoStage ∈ F ∧
      lookupB "Unknown" (pipelineSummaryOf ([wDealLead] ++ wDealNoStage :: [wDealWon])) =
        some ⟨F.length, (F.map dealValue).sum,
          F.map (fun x => (dealName x, dealValue x))⟩ ∧
      (dealName wDealNoStage, dealValue wDealNoStage) ∈
        F.map (fun x => (dealName x, dealValue x))) :=
  ⟨rfl, by decide, by decide,
    claim_C9 [wDealLead] [wDealWon] wDealNoStage rfl (by decide) (by decide)⟩

/-! ## Claim C8: URL extraction -/

/-- No match starts at the empty text. -/
lemma matchUrlAt_nil : matchUrlAt [] = none := rfl

/-- Every match carries at least the scheme characters. -/
lemma matchUrlAt_pos (cs m : List Char) (h : matchUrlAt cs = some m) :
    0 < m.length := by
  unfold matchUrlAt at h
  split at h
  · split at h
    · cases h
    · injection h with h2
      subst h2
      simp [schemeHttps]
  · split at h
    · split at h
      · cases h
      · injection h with h2
        subst h2
        simp [schemeHttp]
    · cases h

/-- Unfolding `isPrefixOf` on two cons cells. -/
lemma cons_isPrefixOf_cons (a b : Char) (as bs : List Char) :
    (a :: as).isPrefixOf (b :: bs) = (a == b && as.isPrefixOf bs) := rfl

/-- Any two sufficient fuels give the same findall scan. -/
lemma scanUrlsAux_congr : ∀ (f g : Nat) (s : List Char),
    s.length ≤ f → s.length ≤ g → scanUrlsAux f s = scanUrlsAux g s := by
  intro f
  induction f with
  | zero =>
    intro g s hf _
    have hs := List.length_eq_zero.1 (Nat.le_zero.1 hf)
    subst hs
    cases g <;> rfl
  | succ f ih =>
    intro g s hf hg
    match s with
    | [] => cases g <;> rfl
    | c :: t =>
      match g with
      | 0 => exact absurd hg (by simp)
      | g + 1 =>
        have hf' : t.length ≤ f := by
          simpa using Nat.succ_le_succ_iff.1 (by simpa using hf)
        have hg' : t.length ≤ g := by
          simpa using Nat.succ_le_succ_iff.1 (by simpa using hg)
        cases hm : matchUrlAt (c :: t) with
        | none =>
          simp only [scanUrlsAux, hm]
          exact ih g t hf' hg'
        | some m =>
          simp only [scanUrlsAux, hm]
          congr 1
          have hp := matchUrlAt_pos _ _ hm
          apply ih
          · rw [List.length_drop]
            simp only [List.length_cons]
            omega
          · rw [List.length_drop]
            simp only [List.length_cons]
            omega

/-- No match starts at a character other than `h`. -/
lemma matchUrlAt_none_of_ne_h (c : Char) (cs : List Char) (hc : c ≠ 'h') :
    matchUrlAt (c :: cs) = none := by
  unfold matchUrlAt
  rw [if_neg, if_neg]
  · intro hpre
    have hpre2 : (('h' :: ['t', 't', 'p', ':', '/', '/']).isPrefixOf (c :: cs)) = true := hpre
    rw [cons_isPrefixOf_cons] at hpre2
    simp only [Bool.and_eq_true, beq_iff_eq] at hpre2
    exact hc hpre2.1.symm
  · intro hpre
    have hpre2 : (('h' :: ['t', 't', 'p', 's', ':', '/', '/']).isPrefixOf (c :: cs)) = true := hpre
    rw [cons_isPrefixOf_cons] at hpre2
    simp only [Bool.and_eq_true, beq_iff_eq] at hpre2
    exact hc hpre2.1.symm

/-- The scan skips a character that cannot start a match. -/
lemma scanUrls_cons_of_ne_h (c : Char) (cs : List Char) (hc : c ≠ 'h') :
    scanUrls (c :: cs) = scanUrls cs := by
  show scanUrlsAux (cs.length + 1) (c :: cs) = scanUrlsAux cs.length cs
  simp only [scanUrlsAux, matchUrlAt_none_of_ne_h c cs hc]

/-- The scan passes over an `h`-free separator unchanged. -/
lemma scanUrls_hFree_append (sep rest : List Char) (h : hFree sep) :
    scanUrls (sep ++ rest) = scanUrls rest := by
  induction sep with
  | nil => rfl
  | cons c t ih =>
    rw [List.cons_append, scanUrls_cons_of_ne_h _ _ (h c (List.mem_cons_self _ _))]
    exact ih (fun x hx => h x (List.mem_cons_of_mem _ hx))

/-- An `h`-free text has no matches at all. -/
lemma scanUrls_of_hFree (s : List Char) (h : hFree s) : scanUrls s = [] := by
  have h2 := scanUrls_hFree_append s [] h
  rw [List.append_nil] at h2
  rw [h2]
  rfl

/-- `takeWhile` passes over a prefix all of whose characters satisfy the
predicate. -/
lemma takeWhile_all_append (p : Char → Bool) :
    ∀ (l1 l2 : List Char), (∀ c ∈ l1, p c = true) →
      (l1 ++ l2).takeWhile p = l1 ++ l2.takeWhile p := by
  intro l1 l2 h
  induction l1 with
  | nil => simp
  | cons c t ih =>
    simp [List.takeWhile_cons, h c (List.mem_cons_self _ _),
      ih (fun x hx => h x (List.mem_cons_of_mem _ hx))]

/-- `takeWhile` of non-delimiters stops immediately at a delimiter-led or
empty text. -/
lemma takeWhile_delimHead (rest : List Char) (h : DelimHead rest) :
    rest.takeWhile (fun c => !urlDelim c) = [] := by
  cases rest with
  | nil => rfl
  | cons c t =>
    have hc : urlDelim c = true := h
    simp [List.takeWhile_cons, hc]

/-- At a full URL token followed by a delimiter or the end, the match is
exactly the token. -/
lemma matchUrlAt_valid (u rest : List Char) (hu : ValidUrl u) (hr : DelimHead rest) :
    matchUrlAt (u ++ rest) = some u := by
  obtain ⟨body, hb0, hbd, hcase⟩ := hu
  have hbodyE : body.isEmpty = false := by
    cases body with
    | nil => exact absurd rfl hb0
    | cons a t => rfl
  have htw : (body ++ rest).takeWhile (fun c => !urlDelim c) = body := by
    rw [takeWhile_all_append _ body rest (fun c hc => by simp [hbd c hc]),
      takeWhile_delimHead rest hr, List.append_nil]
  cases hcase with
  | inl hcu =>
    subst hcu
    rw [List.append_assoc]
    unfold matchUrlAt
    have h1 : schemeHttps.isPrefixOf (schemeHttp ++ (body ++ rest)) = false := rfl
    have h2 : schemeHttp.isPrefixOf (schemeHttp ++ (body ++ rest)) = true := by
      rw [List.isPrefixOf_iff_prefix]
      exact List.prefix_append _ _
    rw [if_neg (by simp [h1]), if_pos h2]
    have hdrop : (schemeHttp ++ (body ++ rest)).drop 7 = body ++ rest := by
      have h7 : schemeHttp.length = 7 := rfl
      rw [← h7, List.drop_left]
    rw [hdrop, htw, if_neg (by simp [hbodyE])]
  | inr hcu =>
    subst hcu
    rw [List.append_assoc]
    unfold matchUrlAt
    have h1 : schemeHttps.isPrefixOf (schemeHttps ++ (body ++ rest)) = true := by
      rw [List.isPrefixOf_iff_prefix]
      exact List.prefix_append _ _
    rw [if_pos h1]
    have hdrop : (schemeHttps ++ (body ++ rest)).drop 8 = body ++ rest := by
      have h8 : schemeHttps.length = 8 := rfl
      rw [← h8, List.drop_left]
    rw [hdrop, htw, if_neg (by simp [hbodyE])]

/-- The scan consumes a found match whole and continues after it. -/
lemma scanUrls_match (cs m : List Char) (hm : matchUrlAt cs = some m) :
    scanUrls cs = m :: scanUrls (cs.drop m.length) := by
  match cs with
  | [] =>
    rw [matchUrlAt_nil] at hm
    cases hm
  | c :: t =>
    show scanUrlsAux (t.length + 1) (c :: t) = _
    simp only [scanUrlsAux, hm]
    congr 1
    apply scanUrlsAux_congr
    · rw [List.length_drop]
      simp only [List.length_cons]
      have hp := matchUrlAt_pos _ _ hm
      omega
    · exact le_rfl

/-- The scan extracts a leading URL token and continues past it. -/
lemma scanUrls_valid_cons (u rest : List Char) (hu : ValidUrl u)
    (hr : DelimHead rest) : scanUrls (u ++ rest) = u :: scanUrls rest := by
  rw [scanUrls_match _ _ (matchUrlAt_valid u rest hu hr), List.drop_left]

/-- C8 (amended, theorem): over a text assembled from `h`-free separators and
URL tokens each followed by a delimiter or the end of text, the extractor
returns exactly the URL tokens, in order of appearance.  (The counterexample
shows the punctuation half of the original claim fails: `.` is not in the
delimiter set.) -/
theorem claim_C8 (parts : List (List Char × List Char)) (tailSep : List Char)
    (text : String) (htext : text.data = assemble parts tailSep)
    (h : ChainOk parts tailSep) :
    extract_urls text = (parts.map (fun p => p.2)).map List.asString := by
  have main : ∀ (ps : List (List Char × List Char)), ChainOk ps tailSep →
      scanUrls (assemble ps tailSep) = ps.map (fun p => p.2) := by
    intro ps
    induction ps with
    | nil =>
      intro hc
      exact scanUrls_of_hFree tailSep hc.1
    | cons p rest ih =>
      intro hc
      obtain ⟨sep, u⟩ := p
      obtain ⟨hsep, hu, hnb, hrest⟩ := hc
      have hdh : DelimHead (assemble rest tailSep) := by
        cases rest with
        | nil => exact hrest.2
        | cons q r =>
          obtain ⟨s2, u2⟩ := q
          obtain ⟨s2ne, s2dh⟩ := hnb
          cases hs2 : s2 with
          | nil => exact absurd hs2 s2ne
          | cons a s2t =>
            rw [hs2] at s2dh
            exact s2dh
      show scanUrls (sep ++ u ++ assemble rest tailSep) =
        ((sep, u) :: rest).map (fun p => p.2)
      rw [List.append_assoc, scanUrls_hFree_append sep _ hsep,
        scanUrls_valid_cons u _ hu hdh, ih hrest]
      rfl
  show (scanUrls text.data).map List.asString = _
  rw [htext, main parts h]

/-- C8 (witness): the amended theorem at a two-URL text with ordinary words
as separators. -/
theorem claim_C8_witness :
    ("go http://a.com x https://b.io".data =
      assemble [("go ".data, "http://a.com".data), (" x ".data, "https://b.io".data)] []) ∧
    extract_urls "go http://a.com x https://b.io" = ["http://a.com", "https://b.io"] := by
  refine ⟨rfl, ?_⟩
  have h := claim_C8 [("go ".data, "http://a.com".data), (" x ".data, "https://b.io".data)]
    [] "go http://a.com x https://b.io" rfl
    ⟨by decide, ⟨"a.com".data, by decide, by decide, Or.inl rfl⟩,
      ⟨by decide, by decide⟩,
      ⟨by decide, ⟨"b.io".data, by decide, by decide, Or.inr rfl⟩, trivial,
        by decide, by decide⟩⟩
  rw [h]
  rfl

/-- C8 (counterexample): trailing sentence punctuation is not excluded — the
period is not in the delimiter set, so it is carried inside the extracted
URL: the extractor does not return the punctuation-stripped URL. -/
theorem claim_C8_counterexample :
    extract_urls "read http://a.com. now" = ["http://a.com."] ∧
    extract_urls "read http://a.com. now" ≠ ["http://a.com"] := by decide

end Bot
